import Mathlib

/-!
Shallow embedding of the browser-automation agent's plan-execution core:
`CommandExecutor.execute_action` and `execute_plan`
(src/agent/web/browser/interaction/executor.py), `CommandParser.parse_plan`
(src/agent/web/browser/interaction/parser.py), `Browser.interact`
(src/agent/web/browser/browser.py) and `GeminiAgent._extract_json_from_text`
(src/agent/llm/gemini_client.py).

Modelling conventions:
- the Playwright page is an external collaborator; it is modelled as an
  oracle `Driver` of pure call-response functions, and the executor also
  returns the ordered list of driver calls it made (`DCall` trace);
- Python exceptions are modelled by `Except PyErr`; a `PyErr` records
  whether it is a Playwright `TimeoutError` (the only exception class the
  code catches selectively) and its `str(e)` message;
- Python dicts are modelled as structures whose fields are `Option`s: a
  `none` field is a missing key, and subscripting a missing key raises
  `KeyError` (message `str(KeyError(k)) = "'k'"`);
- `page.wait_for_timeout` (a plain sleep) is modelled as never raising; all
  other driver calls may raise arbitrarily.
-/

namespace BrowserAgent

/-- Process environment, as read by `os.getenv`. -/
abbrev Env := String → Option String

/-- A Python exception value: whether it is a Playwright `TimeoutError`, and
its `str(e)` text. -/
structure PyErr where
  isTimeout : Bool
  msg : String
deriving DecidableEq

/-- Result of one driver (Playwright) call: a value, or a raised exception. -/
abbrev DR (α : Type) := Except PyErr α

/-- One call made to the page driver, in the order the code awaits them.
`goto` carries the url, `waitForSelector` the selector and the timeout in
milliseconds, `clickEl`/`fillEl` the selector whose element handle is acted
on, `sleep` the `wait_for_timeout` milliseconds, `pageClick` a direct
`page.click` (used by the cookie-banner sweep in `browser.py`). -/
inductive DCall where
  | goto (url : String)
  | waitLoadState (st : String)
  | waitForSelector (sel : String) (timeoutMs : Int)
  | clickEl (sel : String)
  | fillEl (sel : String) (text : String)
  | sleep (ms : Int)
  | press (key : String)
  | pageClick (sel : String)
  | content
deriving DecidableEq

/-- The page-driver oracle. `goto` returns the response's status code, or
`none` for a `None` response; `waitForSelector` returns an element handle
(`some ()`) or `none` (a `None` return); `delayMs` models the value
`random.randint(100, 300)` takes in `Browser._add_human_delay`. -/
structure Driver where
  goto : String → DR (Option Nat)
  waitLoadState : String → DR Unit
  waitForSelector : String → Int → DR (Option Unit)
  clickEl : String → DR Unit
  fillEl : String → String → DR Unit
  press : String → DR Unit
  pageClick : String → DR Unit
  content : DR String
  delayMs : Int

/-- The result dict every executor path returns: key `success` is always
present; `message` and `error_type` only on some paths. -/
structure ActionResult where
  success : Bool
  message : Option String := none
  error_type : Option String := none
deriving DecidableEq

/-- An action dict (also used for a step's `details` dict, which holds the
same keys).  Fields cover every key the embedded code reads or writes;
`none` is an absent key. -/
structure ActionDict where
  action : Option String := none
  target : Option String := none
  value : Option String := none
  selectors : Option (List String) := none
  url : Option String := none
  selector : Option String := none
  text : Option String := none
  seconds : Option Int := none
deriving DecidableEq

/-- A step dict of an LLM plan, as `execute_plan` and `parse_plan` read it. -/
structure StepDict where
  action_type : Option String := none
  details : Option ActionDict := none
deriving DecidableEq

/-- The plan dict: only the `steps` key is read (`plan.get("steps", [])`). -/
structure PlanDict where
  steps : Option (List StepDict) := none
deriving DecidableEq

/-- Python `str(KeyError(k))`, which prints the missing key quoted. -/
def keyErr (k : String) : PyErr := ⟨false, "'" ++ k ++ "'"⟩

/-- Python `str(ValueError)` raised by `int(s)` on a non-numeric string. -/
def valErr (s : String) : PyErr :=
  ⟨false, "invalid literal for int() with base 10: '" ++ s ++ "'"⟩

/-- Characters of the reserved value string "ENV:". -/
def ENVP : List Char := ['E', 'N', 'V', ':']

/-- Python `str.split(sep)` scan for a non-empty separator `s0 :: stail`:
cut at every leftmost non-overlapping occurrence.  `fuel` is the input
length plus one (every step consumes at least one character, so it never
runs out; the fuel only makes the recursion structural). -/
def pySplitGo (s0 : Char) (stail : List Char) :
    Nat → List Char → List Char → List (List Char)
  | 0, acc, _ => [acc.reverse]
  | _ + 1, acc, [] => [acc.reverse]
  | fuel + 1, acc, c :: rest =>
    if (s0 :: stail).isPrefixOf (c :: rest) then
      acc.reverse :: pySplitGo s0 stail fuel [] (rest.drop stail.length)
    else
      pySplitGo s0 stail fuel (c :: acc) rest

/-- Python `str.split(sep)` (an empty separator raises in Python and is
unreachable here: the code only splits on "ENV:"). -/
def pySplit (sep : List Char) (l : List Char) : List (List Char) :=
  match sep with
  | [] => [l]
  | s0 :: stail => pySplitGo s0 stail (l.length + 1) [] l

/-- Python `os.getenv(n, d)`. -/
def getenvD (env : Env) (n d : String) : String := (env n).getD d

/-- `CommandExecutor._resolve_env_value`: a string value starting with
"ENV:" is replaced by `os.getenv(value.split("ENV:")[1], "")`; anything
else passes through.  Index 1 of the split always exists when the guard
holds, so `getD 1 []` equals Python's `[1]` here. -/
def resolve_env_value (env : Env) (value : String) : String :=
  if ENVP.isPrefixOf value.data then
    getenvD env (String.mk ((pySplit ENVP value.data).getD 1 [])) ""
  else value

/-- Characters Python `str.strip()` and `int()` strip (ASCII fragment of
Python's whitespace set; the embedded strings are ASCII). -/
def pyWsChar (c : Char) : Bool :=
  c = ' ' || c = '\t' || c = '\n' || c = '\r' || c = '\x0b' || c = '\x0c'

/-- Python `str.strip()` on a character list. -/
def pyStripL (cs : List Char) : List Char :=
  ((cs.dropWhile pyWsChar).reverse.dropWhile pyWsChar).reverse

/-- Numeric value of a digit list. -/
def digitsVal (ds : List Char) : Nat :=
  ds.foldl (fun n c => n * 10 + (c.toNat - 48)) 0

/-- Python `int(s)` on a decimal string: surrounding whitespace stripped,
one optional sign, then one or more digits (the underscore-separator and
non-ASCII-digit extensions of Python's grammar are not modelled; the
embedded values are plain decimals).  `none` models a raised `ValueError`. -/
def pyInt (s : String) : Option Int :=
  match pyStripL s.data with
  | '-' :: ds =>
    if ds.isEmpty || !(ds.all (·.isDigit)) then none
    else some (-(digitsVal ds : Int))
  | '+' :: ds =>
    if ds.isEmpty || !(ds.all (·.isDigit)) then none
    else some ((digitsVal ds : Int))
  | ds =>
    if ds.isEmpty || !(ds.all (·.isDigit)) then none
    else some ((digitsVal ds : Int))

/-- `bool(response and response.status < 400)` for a navigation response. -/
def respOk : Option Nat → Bool
  | none => false
  | some st => st < 400

/-- Outcome of the body of `execute_action` (the code inside its outer
`try`): the result it returns or the exception escaping to the outer
handler, the action dict afterwards (the code mutates `action["value"]`),
and the driver calls made. -/
structure ExecOut where
  res : Except PyErr ActionResult
  post : ActionDict
  calls : List DCall

/-- The `click` branch's selector loop: wait up to 10s for visibility, click
on success and return immediately; any exception in an attempt is swallowed
and the next candidate is tried; a `None` element falls through likewise. -/
def clickLoop (d : Driver) : List String → (ActionResult × List DCall)
  | [] => (⟨false, some "Click action failed for all selectors", none⟩, [])
  | sel :: rest =>
    match d.waitForSelector sel 10000 with
    | .ok (some _) =>
      match d.clickEl sel with
      | .ok _ => (⟨true, none, none⟩, [.waitForSelector sel 10000, .clickEl sel])
      | .error _ =>
        let (r, tr) := clickLoop d rest
        (r, .waitForSelector sel 10000 :: .clickEl sel :: tr)
    | .ok none =>
      let (r, tr) := clickLoop d rest
      (r, .waitForSelector sel 10000 :: tr)
    | .error _ =>
      let (r, tr) := clickLoop d rest
      (r, .waitForSelector sel 10000 :: tr)

/-- The `type` branch's selector loop; `v` is `action["value"]` after the
ENV resolution (`none` = missing key, whose `KeyError` is swallowed by the
per-selector handler like any other attempt failure). -/
def typeLoop (d : Driver) (v : Option String) : List String → (ActionResult × List DCall)
  | [] => (⟨false, some "Type action failed for all selectors", none⟩, [])
  | sel :: rest =>
    match d.waitForSelector sel 10000 with
    | .ok (some _) =>
      match v with
      | none =>
        let (r, tr) := typeLoop d v rest
        (r, .waitForSelector sel 10000 :: tr)
      | some tv =>
        match d.fillEl sel tv with
        | .ok _ => (⟨true, none, none⟩, [.waitForSelector sel 10000, .fillEl sel tv])
        | .error _ =>
          let (r, tr) := typeLoop d v rest
          (r, .waitForSelector sel 10000 :: .fillEl sel tv :: tr)
    | .ok none =>
      let (r, tr) := typeLoop d v rest
      (r, .waitForSelector sel 10000 :: tr)
    | .error _ =>
      let (r, tr) := typeLoop d v rest
      (r, .waitForSelector sel 10000 :: tr)

/-- The `wait` branch's selector loop: only `TimeoutError` is caught
(`except TimeoutError: continue`); any other exception escapes to the outer
handler.  A normal return of `wait_for_selector` succeeds at once (this
branch never inspects the returned element). -/
def waitSelLoop (d : Driver) (t : Int) :
    List String → (Except PyErr ActionResult × List DCall)
  | [] => (.ok ⟨false, some "Wait condition not met", none⟩, [])
  | sel :: rest =>
    match d.waitForSelector sel t with
    | .ok _ => (.ok ⟨true, none, none⟩, [.waitForSelector sel t])
    | .error e =>
      if e.isTimeout then
        let (r, tr) := waitSelLoop d t rest
        (r, .waitForSelector sel t :: tr)
      else
        (.error e, [.waitForSelector sel t])

/-- The `submit` branch's fallback selector loop (visibility wait, click,
then a network-idle settle wait; every attempt failure is swallowed). -/
def submitLoop (d : Driver) : List String → (ActionResult × List DCall)
  | [] => (⟨false, some "Submit action failed", none⟩, [])
  | sel :: rest =>
    match d.waitForSelector sel 10000 with
    | .ok (some _) =>
      match d.clickEl sel with
      | .ok _ =>
        match d.waitLoadState "networkidle" with
        | .ok _ =>
          (⟨true, none, none⟩,
           [.waitForSelector sel 10000, .clickEl sel, .waitLoadState "networkidle"])
        | .error _ =>
          let (r, tr) := submitLoop d rest
          (r, .waitForSelector sel 10000 :: .clickEl sel
                :: .waitLoadState "networkidle" :: tr)
      | .error _ =>
        let (r, tr) := submitLoop d rest
        (r, .waitForSelector sel 10000 :: .clickEl sel :: tr)
    | .ok none =>
      let (r, tr) := submitLoop d rest
      (r, .waitForSelector sel 10000 :: tr)
    | .error _ =>
      let (r, tr) := submitLoop d rest
      (r, .waitForSelector sel 10000 :: tr)

/-- The `submit` branch: optimistic Enter press plus network-idle settle;
if either raises, fall back to the selector loop.  Reading a missing
`selectors` key inside the fallback raises out of the branch. -/
def submitBody (d : Driver) (a : ActionDict) (pre : List DCall) : ExecOut :=
  match a.selectors with
  | none => ⟨.error (keyErr "selectors"), a, pre⟩
  | some sels =>
    let (r, tr) := submitLoop d sels
    ⟨.ok r, a, pre ++ tr⟩

/-- Body of `CommandExecutor.execute_action` (the code inside its outer
`try`).  It reads `action["action"]`, resolves an ENV-prefixed
`action["value"]` in place, then dispatches on the action type exactly as
executor.py lines 31-142 do. -/
def execute_action_body (d : Driver) (env : Env) (a0 : ActionDict) : ExecOut :=
  match a0.action with
  | none => ⟨.error (keyErr "action"), a0, []⟩
  | some atype =>
    let a := match a0.value with
      | some v => { a0 with value := some (resolve_env_value env v) }
      | none => a0
    if atype = "navigation" then
      match a.value with
      | none => ⟨.error (keyErr "value"), a, []⟩
      | some url =>
        match d.goto url with
        | .error e => ⟨.error e, a, [.goto url]⟩
        | .ok resp =>
          match d.waitLoadState "domcontentloaded" with
          | .error e => ⟨.error e, a, [.goto url, .waitLoadState "domcontentloaded"]⟩
          | .ok _ =>
            ⟨.ok ⟨respOk resp, none, none⟩, a,
             [.goto url, .waitLoadState "domcontentloaded"]⟩
    else if atype = "click" then
      match a.selectors with
      | none => ⟨.error (keyErr "selectors"), a, []⟩
      | some sels =>
        let (r, tr) := clickLoop d sels
        ⟨.ok r, a, tr⟩
    else if atype = "type" then
      match a.selectors with
      | none => ⟨.error (keyErr "selectors"), a, []⟩
      | some sels =>
        let (r, tr) := typeLoop d a.value sels
        ⟨.ok r, a, tr⟩
    else if atype = "wait" then
      match a.selectors with
      | some (s :: ss) =>
        (match a.value with
         | none => ⟨.error (keyErr "value"), a, []⟩
         | some v =>
           match pyInt v with
           | none => ⟨.error (valErr v), a, []⟩
           | some t =>
             let (r, tr) := waitSelLoop d t (s :: ss)
             ⟨r, a, tr⟩)
      | _ =>
        match a.value with
        | none => ⟨.error (keyErr "value"), a, []⟩
        | some v =>
          match pyInt v with
          | none => ⟨.error (valErr v), a, []⟩
          | some t => ⟨.ok ⟨true, none, none⟩, a, [.sleep (t * 1000)]⟩
    else if atype = "submit" then
      match d.press "Enter" with
      | .ok _ =>
        match d.waitLoadState "networkidle" with
        | .ok _ =>
          ⟨.ok ⟨true, none, none⟩, a, [.press "Enter", .waitLoadState "networkidle"]⟩
        | .error _ =>
          submitBody d a [.press "Enter", .waitLoadState "networkidle"]
      | .error _ => submitBody d a [.press "Enter"]
    else if atype = "press" then
      match a.value with
      | none =>
        ⟨.ok ⟨false, some ("Press action failed: " ++ (keyErr "value").msg), none⟩, a, []⟩
      | some key =>
        match d.press key with
        | .ok _ => ⟨.ok ⟨true, none, none⟩, a, [.press key]⟩
        | .error e =>
          ⟨.ok ⟨false, some ("Press action failed: " ++ e.msg), none⟩, a, [.press key]⟩
    else
      ⟨.ok ⟨false, some ("Unknown action type: " ++ atype), some "UnknownAction"⟩, a, []⟩

/-- The result the outer `except Exception` handler of `execute_action`
builds from a caught exception. -/
def actionErrorResult (e : PyErr) : ActionResult :=
  ⟨false, some ("Action failed: " ++ e.msg), some "ActionError"⟩

/-- `execute_action` at the Python call boundary: the whole function, with
its outer `try/except`, in the exception monad.  An `.error` value here
would be an exception escaping the call. -/
def execute_action_py (d : Driver) (env : Env) (a : ActionDict) :
    Except PyErr ActionResult :=
  match (execute_action_body d env a).res with
  | .ok r => .ok r
  | .error e => .ok (actionErrorResult e)

/-- The `ActionResult` that `execute_action` returns. -/
def execute_action (d : Driver) (env : Env) (a : ActionDict) : ActionResult :=
  match (execute_action_body d env a).res with
  | .ok r => r
  | .error e => actionErrorResult e

/-- The action dict after `execute_action` returns (it may have written
`action["value"]`). -/
def execute_post (d : Driver) (env : Env) (a : ActionDict) : ActionDict :=
  (execute_action_body d env a).post

/-- The driver calls `execute_action` made, in order. -/
def execute_calls (d : Driver) (env : Env) (a : ActionDict) : List DCall :=
  (execute_action_body d env a).calls

/-- Conversion of a plan step to an action dict in `execute_plan`:
`{"action": action_type, **details}` — the details' own `action` key, when
present, overrides the positional one, per Python dict-literal semantics. -/
def stepToAction (atype : String) (det : ActionDict) : ActionDict :=
  { det with action := some (det.action.getD atype) }

/-- The step loop of `execute_plan`: run each step's action, stop at the
first result whose `success` is false and return that result unchanged;
a missing `action_type`/`details` key raises to the outer handler, which
returns a `PlanError` result. -/
def planLoop (d : Driver) (env : Env) : List StepDict → (ActionResult × List DCall)
  | [] => (⟨true, some "Plan executed successfully", none⟩, [])
  | st :: rest =>
    match st.action_type with
    | none =>
      (⟨false, some ("Plan execution failed: " ++ (keyErr "action_type").msg),
        some "PlanError"⟩, [])
    | some atype =>
      match st.details with
      | none =>
        (⟨false, some ("Plan execution failed: " ++ (keyErr "details").msg),
          some "PlanError"⟩, [])
      | some det =>
        let act := stepToAction atype det
        let r := execute_action d env act
        let tr := execute_calls d env act
        if r.success then
          let (r2, tr2) := planLoop d env rest
          (r2, tr ++ tr2)
        else (r, tr)

/-- `CommandExecutor.execute_plan`: iterate `plan.get("steps", [])`. -/
def execute_plan (d : Driver) (env : Env) (plan : PlanDict) :
    ActionResult × List DCall :=
  planLoop d env (plan.steps.getD [])

/-- Conversion of one plan step by `CommandParser.parse_plan` (parser.py
lines 104-139): a `navigation` step becomes one `goto` action; a `click`
step fans out into one single-selector `click` action per candidate; an
`input` step keeps only the first selector (raising `IndexError` when the
list is empty); a `wait` step keeps `details.get("seconds", 1)`; a `verify`
step keeps its selector list; any other `action_type` is silently dropped.
A missing key raises `KeyError` out of `parse_plan`. -/
def parseStep (st : StepDict) : Except PyErr (List ActionDict) :=
  match st.action_type with
  | none => .error (keyErr "action_type")
  | some atype =>
    match st.details with
    | none => .error (keyErr "details")
    | some det =>
      if atype = "navigation" then
        match det.url with
        | none => .error (keyErr "url")
        | some u => .ok [{ action := some "goto", url := some u }]
      else if atype = "click" then
        match det.selectors with
        | none => .error (keyErr "selectors")
        | some sels =>
          .ok (sels.map (fun s => { action := some "click", selector := some s }))
      else if atype = "input" then
        match det.selectors with
        | none => .error (keyErr "selectors")
        | some [] => .error ⟨false, "list index out of range"⟩
        | some (s0 :: _) =>
          match det.text with
          | none => .error (keyErr "text")
          | some t =>
            .ok [{ action := some "fill", selector := some s0, text := some t }]
      else if atype = "wait" then
        .ok [{ action := some "wait", seconds := some (det.seconds.getD 1) }]
      else if atype = "verify" then
        match det.selectors with
        | none => .error (keyErr "selectors")
        | some sels => .ok [{ action := some "verify", selectors := some sels }]
      else .ok []

/-- The fold of `parseStep` over the step list. -/
def parseSteps : List StepDict → Except PyErr (List ActionDict)
  | [] => .ok []
  | st :: rest =>
    match parseStep st with
    | .error e => .error e
    | .ok acts =>
      match parseSteps rest with
      | .error e => .error e
      | .ok more => .ok (acts ++ more)

/-- `CommandParser.parse_plan`: convert `plan.get("steps", [])` into the
flat list of executable browser actions. -/
def parse_plan (plan : PlanDict) : Except PyErr (List ActionDict) :=
  parseSteps (plan.steps.getD [])

/-- The static cookie-banner selector table of
`Browser._handle_cookie_banners`. -/
def cookieBannerSelectors : List String :=
  ["[id*=\"cookie\"] button",
   "[class*=\"cookie\"] button",
   "[id*=\"consent\"] button",
   "[class*=\"consent\"] button",
   "button[contains(text(), \"Accept\")]",
   "button[contains(text(), \"I agree\")]",
   "button[contains(text(), \"Got it\")]",
   "#accept-all-cookies",
   "[data-testid=\"accept-all-cookies\"]",
   "button:has-text(\"Accept all\")"]

/-- Driver calls of one `_handle_cookie_banners` sweep: every selector is
click-attempted with a short timeout; a successful click is followed by a
humanization delay; every failure is swallowed. -/
def bannerCalls (d : Driver) : List DCall :=
  cookieBannerSelectors.flatMap (fun sel =>
    match d.pageClick sel with
    | .ok _ => [.pageClick sel, .sleep d.delayMs]
    | .error _ => [.pageClick sel])

/-- The `UnexpectedError` result `Browser.interact`'s outer handler builds. -/
def unexpectedErrorResult (e : PyErr) : ActionResult :=
  ⟨false, some ("Unexpected error: " ++ e.msg), some "UnexpectedError"⟩

/-- The action loop of `Browser.interact` (browser.py lines 129-146): before
each action a cookie-banner sweep; a failed result is logged via
`result['message']` (a missing key raises to the outer handler) and returned
as the plan outcome; a successful action is logged via `action['action']`
(likewise) and followed by a humanization delay. -/
def interactLoop (d : Driver) (env : Env) : List ActionDict → (ActionResult × List DCall)
  | [] => (⟨true, some "Command executed successfully", none⟩, [])
  | act :: rest =>
    let b := bannerCalls d
    let r := execute_action d env act
    let tr := execute_calls d env act
    if r.success then
      match act.action with
      | none => (unexpectedErrorResult (keyErr "action"), b ++ tr)
      | some _ =>
        let (r2, tr2) := interactLoop d env rest
        (r2, b ++ tr ++ .sleep d.delayMs :: tr2)
    else
      match r.message with
      | none => (unexpectedErrorResult (keyErr "message"), b ++ tr)
      | some _ => (r, b ++ tr)

/-- `Browser.interact`, with the external planner's reply passed in as
`plan` (`none` models `plan_actions` returning `None`): read the page
content, reject a missing or step-less plan as a `PlanningError`, parse the
plan (a raised `KeyError`/`IndexError` becomes an `UnexpectedError`), then
run the action loop. -/
def interact (d : Driver) (env : Env) (plan : Option PlanDict) :
    ActionResult × List DCall :=
  match d.content with
  | .error e => (unexpectedErrorResult e, [.content])
  | .ok _ =>
    match plan with
    | none =>
      (⟨false, some "Failed to generate action plan", some "PlanningError"⟩, [.content])
    | some p =>
      match p.steps with
      | none =>
        (⟨false, some "Failed to generate action plan", some "PlanningError"⟩, [.content])
      | some [] =>
        (⟨false, some "Failed to generate action plan", some "PlanningError"⟩, [.content])
      | some (_ :: _) =>
        match parse_plan p with
        | .error e => (unexpectedErrorResult e, [.content])
        | .ok acts =>
          let (r, tr) := interactLoop d env acts
          (r, .content :: tr)

/-- JSON values of the fragment `json.loads` is exercised on here: floats
are not modelled (the embedded plans carry only strings, integers, objects
and arrays), and an object keeps its members in source order (the embedded
inputs have distinct keys, so this coincides with Python's dict). -/
inductive Json where
  | null
  | bool (b : Bool)
  | num (n : Int)
  | str (s : String)
  | arr (items : List Json)
  | obj (fields : List (String × Json))

/-- The whitespace the Python `json` decoder skips between tokens. -/
def jsonWsChar (c : Char) : Bool :=
  c = ' ' || c = '\t' || c = '\n' || c = '\r'

/-- Skip inter-token whitespace. -/
def skipWs (cs : List Char) : List Char := cs.dropWhile jsonWsChar

/-- Body of a JSON string after the opening quote: returns the decoded
characters and the rest after the closing quote.  Escapes are the JSON
two-character ones (`\u` and raw control characters are rejected, as the
strict Python decoder rejects the latter; `\u` does not occur in the
embedded inputs). -/
def parseStrBody : List Char → Option (List Char × List Char)
  | [] => none
  | '"' :: rest => some ([], rest)
  | '\\' :: e :: rest =>
    match
      (match e with
       | '"' => some '"'
       | '\\' => some '\\'
       | '/' => some '/'
       | 'b' => some '\x08'
       | 'f' => some '\x0c'
       | 'n' => some '\n'
       | 'r' => some '\r'
       | 't' => some '\t'
       | _ => none) with
    | none => none
    | some c =>
      match parseStrBody rest with
      | none => none
      | some (cs, r) => some (c :: cs, r)
  | c :: rest =>
    if c.toNat < 32 then none
    else
      match parseStrBody rest with
      | none => none
      | some (cs, r) => some (c :: cs, r)

/-- An unsigned JSON integer: `0` alone, or a nonzero leading digit followed
by digits (the JSON grammar Python's `NUMBER_RE` implements, without the
float part). -/
def parseUNum : List Char → Option (Nat × List Char)
  | '0' :: rest => some (0, rest)
  | c :: rest =>
    if c.isDigit then
      let ds := rest.takeWhile (·.isDigit)
      some (digitsVal (c :: ds), rest.dropWhile (·.isDigit))
    else none
  | [] => none

/-- A JSON integer with optional minus sign. -/
def parseNum : List Char → Option (Int × List Char)
  | '-' :: rest =>
    match parseUNum rest with
    | none => none
    | some (n, r) => some (-(n : Int), r)
  | cs =>
    match parseUNum cs with
    | none => none
    | some (n, r) => some ((n : Int), r)

mutual

/-- A JSON value, positioned at its first character; `f` is fuel (each
recursive descent consumed at least one input character, so the top-level
fuel `length + 1` never runs out on the inputs the theorems touch). -/
def parseVal : Nat → List Char → Option (Json × List Char)
  | 0, _ => none
  | _ + 1, 'n' :: 'u' :: 'l' :: 'l' :: rest => some (.null, rest)
  | _ + 1, 't' :: 'r' :: 'u' :: 'e' :: rest => some (.bool true, rest)
  | _ + 1, 'f' :: 'a' :: 'l' :: 's' :: 'e' :: rest => some (.bool false, rest)
  | _ + 1, '"' :: rest =>
    match parseStrBody rest with
    | none => none
    | some (cs, r) => some (.str (String.mk cs), r)
  | f + 1, '\x7b' :: rest =>
    (match skipWs rest with
     | '\x7d' :: r2 => some (.obj [], r2)
     | cs2 =>
       match parseMembers f cs2 with
       | none => none
       | some (ms, r2) => some (.obj ms, r2))
  | f + 1, '[' :: rest =>
    (match skipWs rest with
     | ']' :: r2 => some (.arr [], r2)
     | cs2 =>
       match parseItems f cs2 with
       | none => none
       | some (its, r2) => some (.arr its, r2))
  | _ + 1, cs =>
    match parseNum cs with
    | none => none
    | some (n, r) => some (.num n, r)

/-- Members of a non-empty JSON object, positioned at a key's quote. -/
def parseMembers : Nat → List Char → Option (List (String × Json) × List Char)
  | 0, _ => none
  | f + 1, '"' :: rest =>
    (match parseStrBody rest with
     | none => none
     | some (kcs, r1) =>
       match skipWs r1 with
       | ':' :: r2 =>
         (match parseVal f (skipWs r2) with
          | none => none
          | some (v, r3) =>
            match skipWs r3 with
            | ',' :: r4 =>
              (match parseMembers f (skipWs r4) with
               | none => none
               | some (ms, r5) => some ((String.mk kcs, v) :: ms, r5))
            | '\x7d' :: r4 => some ([(String.mk kcs, v)], r4)
            | _ => none)
       | _ => none)
  | _ + 1, _ => none

/-- Items of a non-empty JSON array, positioned at a value. -/
def parseItems : Nat → List Char → Option (List Json × List Char)
  | 0, _ => none
  | f + 1, cs =>
    match parseVal f cs with
    | none => none
    | some (v, r1) =>
      match skipWs r1 with
      | ',' :: r2 =>
        (match parseItems f (skipWs r2) with
         | none => none
         | some (its, r3) => some (v :: its, r3))
      | ']' :: r2 => some ([v], r2)
      | _ => none

end

/-- The Python `json.loads` top level: skip whitespace, decode one value,
require only whitespace after it.  `none` models a raised
`JSONDecodeError`. -/
def pyJsonParseL (cs : List Char) : Option Json :=
  match parseVal (cs.length + 1) (skipWs cs) with
  | none => none
  | some (v, rest) => if skipWs rest = [] then some v else none

/-- `json.loads` on a string. -/
def pyJsonParse (s : String) : Option Json := pyJsonParseL s.data

/-- Fence characters of the pattern "```json". -/
def fenceJson : List Char := ['`', '`', '`', 'j', 's', 'o', 'n']

/-- Fence characters of the pattern "```". -/
def fence3 : List Char := ['`', '`', '`']

/-- Python `re.sub(r"```json|```", "", text)`: at each position the
alternation tries "```json" first, then "```"; matches are removed and
scanning resumes after them.  `fuel` is the input length (each step
consumes at least one character). -/
def stripFencesF : Nat → List Char → List Char
  | 0, cs => cs
  | _ + 1, [] => []
  | fuel + 1, c :: rest =>
    if fenceJson.isPrefixOf (c :: rest) then stripFencesF fuel ((c :: rest).drop 7)
    else if fence3.isPrefixOf (c :: rest) then stripFencesF fuel ((c :: rest).drop 3)
    else c :: stripFencesF fuel rest

/-- The fence-removal substitution at its call site. -/
def stripFences (cs : List Char) : List Char := stripFencesF cs.length cs

/-- Lookahead of the regex `,\s*CLOSE` after its comma: skip Python regex
whitespace greedily, then require the closing bracket; returns the rest
after the match. -/
def chopWsClose (close : Char) : List Char → Option (List Char)
  | [] => none
  | c :: rest =>
    if c = close then some rest
    else if pyWsChar c then chopWsClose close rest
    else none

/-- Python `re.sub(r",\s*}", "}", s)` (and the `]` twin): each leftmost
non-overlapping match of a comma, optional whitespace and the closing
bracket is replaced by the bracket alone; `fuel` is the input length (each
step consumes at least one character). -/
def subCommaCloseF (close : Char) : Nat → List Char → List Char
  | 0, cs => cs
  | _ + 1, [] => []
  | f + 1, c :: rest =>
    if c = ',' then
      match chopWsClose close rest with
      | some rest2 => close :: subCommaCloseF close f rest2
      | none => c :: subCommaCloseF close f rest
    else c :: subCommaCloseF close f rest

/-- The comma-cleanup substitution at its call sites. -/
def subCommaClose (close : Char) (cs : List Char) : List Char :=
  subCommaCloseF close cs.length cs

/-- The cleaned text `_extract_json_from_text` feeds to `json.loads`:
fences removed, surrounding whitespace stripped, trailing commas before
`}` and `]` removed (gemini_client.py lines 212-216). -/
def cleanedText (text : String) : List Char :=
  subCommaClose ']' (subCommaClose '\x7d' (pyStripL (stripFences text.data)))

/-- `GeminiAgent._extract_json_from_text`: parse the cleaned text; a decode
error is caught and an empty dict returned. -/
def extract_json_from_text (text : String) : Json :=
  match pyJsonParseL (cleanedText text) with
  | some j => j
  | none => Json.obj []

/-- Scan for the close of a balanced brace span: `acc` holds the span so
far reversed, `depth` the number of open braces. -/
def balSpanGo (depth : Nat) (acc : List Char) : List Char → Option (List Char)
  | [] => none
  | c :: rest =>
    if c = '\x7b' then balSpanGo (depth + 1) (c :: acc) rest
    else if c = '\x7d' then
      match depth with
      | 0 => none
      | 1 => some ((c :: acc).reverse)
      | d + 2 => balSpanGo (d + 1) (c :: acc) rest
    else balSpanGo depth (c :: acc) rest

/-- The first balanced `{...}` span of a text, by plain brace counting. -/
def firstBalancedSpan (cs : List Char) : Option (List Char) :=
  match cs.dropWhile (· ≠ '\x7b') with
  | [] => none
  | c :: rest => balSpanGo 1 [c] rest

/-- Modelled from the spec (section 4.1 step 3), not from the source, which
has no such step: after a failed strict parse of the cleaned text, search it
for the first balanced `{...}` span and retry the parse on that span before
giving up with an empty dict. -/
def extract_json_spec (text : String) : Json :=
  match pyJsonParseL (cleanedText text) with
  | some j => j
  | none =>
    match firstBalancedSpan (cleanedText text) with
    | none => Json.obj []
    | some span =>
      match pyJsonParseL span with
      | some j => j
      | none => Json.obj []

/-- Outcome of one `click` candidate on the driver oracle: visible within
10s and then clicked without an exception. -/
def clickCand (d : Driver) (sel : String) : Bool :=
  match d.waitForSelector sel 10000 with
  | .ok (some _) =>
    match d.clickEl sel with
    | .ok _ => true
    | .error _ => false
  | _ => false

/-- Driver calls one `click` candidate attempt makes. -/
def clickCandCalls (d : Driver) (sel : String) : List DCall :=
  match d.waitForSelector sel 10000 with
  | .ok (some _) => [.waitForSelector sel 10000, .clickEl sel]
  | _ => [.waitForSelector sel 10000]

/-- Outcome of one `type` candidate (with the resolved value `v`, `none`
when the `value` key is missing). -/
def typeCand (d : Driver) (v : Option String) (sel : String) : Bool :=
  match d.waitForSelector sel 10000 with
  | .ok (some _) =>
    match v with
    | none => false
    | some tv =>
      match d.fillEl sel tv with
      | .ok _ => true
      | .error _ => false
  | _ => false

/-- Driver calls one `type` candidate attempt makes. -/
def typeCandCalls (d : Driver) (v : Option String) (sel : String) : List DCall :=
  match d.waitForSelector sel 10000 with
  | .ok (some _) =>
    match v with
    | none => [.waitForSelector sel 10000]
    | some tv => [.waitForSelector sel 10000, .fillEl sel tv]
  | _ => [.waitForSelector sel 10000]

/-- Whether a `wait` candidate becomes visible within `t` milliseconds,
i.e. the driver's visibility wait returns instead of timing out. -/
def waitCand (d : Driver) (t : Int) (sel : String) : Bool :=
  match d.waitForSelector sel t with
  | .ok _ => true
  | .error _ => false

/-- Whether the visibility wait on a selector either returns or raises a
`TimeoutError` (the two outcomes of the spec's page-driver interface
`wait_for_visible(selector, timeout) -> element|timeout`). -/
def visibleOrTimeout (d : Driver) (t : Int) (sel : String) : Bool :=
  match d.waitForSelector sel t with
  | .ok _ => true
  | .error e => e.isTimeout

/-- The action-`value` string a driver call carries, if any: the navigation
url, the filled text, or the pressed key. -/
def usesVal : DCall → Option String
  | .goto url => some url
  | .fillEl _ t => some t
  | .press k => some k
  | _ => none

/-- The action dict `execute_plan` builds for a step (total on well-formed
steps, where `action_type` and `details` are present). -/
def stepAction (st : StepDict) : ActionDict :=
  stepToAction (st.action_type.getD "") (st.details.getD {})

/-- The result of the step's action, on the (stateless) driver oracle. -/
def stepRes (d : Driver) (env : Env) (st : StepDict) : ActionResult :=
  execute_action d env (stepAction st)

/-- The driver calls of the step's action. -/
def stepCallsOf (d : Driver) (env : Env) (st : StepDict) : List DCall :=
  execute_calls d env (stepAction st)

/-- A step dict carrying the two keys `execute_plan` reads before
dispatching. -/
def wfStep (st : StepDict) : Prop :=
  st.action_type.isSome = true ∧ st.details.isSome = true

/-- A benign concrete driver for witnesses: navigation responds 200, every
selector is visible, clicks and fills succeed; direct `page.click` (used
only by the cookie-banner sweep) times out. -/
def D1 : Driver :=
  { goto := fun _ => .ok (some 200)
    waitLoadState := fun _ => .ok ()
    waitForSelector := fun _ _ => .ok (some ())
    clickEl := fun _ => .ok ()
    fillEl := fun _ _ => .ok ()
    press := fun _ => .ok ()
    pageClick := fun _ => .error ⟨true, "Timeout 1000ms exceeded."⟩
    content := .ok "<html></html>"
    delayMs := 150 }

/-- A concrete driver on which every visibility wait times out. -/
def DT : Driver :=
  { goto := fun _ => .ok (some 200)
    waitLoadState := fun _ => .ok ()
    waitForSelector := fun _ _ => .error ⟨true, "Timeout 10000ms exceeded."⟩
    clickEl := fun _ => .ok ()
    fillEl := fun _ _ => .ok ()
    press := fun _ => .ok ()
    pageClick := fun _ => .error ⟨true, "Timeout 1000ms exceeded."⟩
    content := .ok "<html></html>"
    delayMs := 150 }

/-- An empty process environment. -/
def E0 : Env := fun _ => none

/-- An environment holding one variable, `FOO=bar`. -/
def EnvFoo : Env := fun n => if n = "FOO" then some "bar" else none

/-- The spec's end-to-end navigate step, with the url under the `value` key
of the action as the planner prompt formats it. -/
def navStepV : StepDict :=
  { action_type := some "navigation"
    details := some { target := some "example homepage",
                      value := some "https://example.com",
                      selectors := some [] } }

/-- The same navigate step with the url additionally under a `url` key,
the shape `parse_plan`'s navigation branch reads. -/
def navStepU : StepDict :=
  { action_type := some "navigation"
    details := some { target := some "example homepage",
                      value := some "https://example.com",
                      url := some "https://example.com",
                      selectors := some [] } }

/-- The spec's end-to-end click step on `#accept`. -/
def clickStepA : StepDict :=
  { action_type := some "click"
    details := some { target := some "accept cookies",
                      selectors := some ["#accept"] } }

/-- The spec's end-to-end two-step plan, value-keyed navigation. -/
def planV : PlanDict := { steps := some [navStepV, clickStepA] }

/-- The spec's end-to-end two-step plan, url-keyed navigation. -/
def planU : PlanDict := { steps := some [navStepU, clickStepA] }

/-- A navigation action dict whose `value` key is missing. -/
def A3w : ActionDict := { action := some "navigation" }

/-- A click action dict with two candidate selectors. -/
def A4 : ActionDict := { action := some "click", selectors := some ["#a", "#b"] }

/-- A selector-less wait action dict with a two-second value. -/
def A5 : ActionDict := { action := some "wait", value := some "2" }

/-- A one-click-step plan for the frame-condition witness. -/
def P9 : PlanDict := { steps := some [clickStepA] }

/-- The action `parse_plan` emits for `P9`. -/
def A9 : ActionDict := { action := some "click", selector := some "#accept" }

/-- A press action whose value names the environment variable FOO. -/
def A8w : ActionDict := { action := some "press", value := some "ENV:FOO" }

/-- C1: the spec's end-to-end scenario — the plan
`[navigate "https://example.com", click #accept]` run through the top-level
`interact` against a driver whose navigation responds 200 and on which
`#accept` is visible — does NOT yield `success = true`: `parse_plan` emits
actions keyed `goto`/`selector`, while `execute_action` dispatches on
`navigation` and reads `selectors`, so the very first action fails.  With
the url under the planner's `value` key, `parse_plan` raises
`KeyError('url')` and `interact` returns an `UnexpectedError` result; even
with a `url` key supplied, the first parsed action is `goto`, which
`execute_action` rejects as an unknown action type.  This evaluates the
code at the claim's failing input. -/
theorem c1_interact_pipeline_mismatch :
    D1.goto "https://example.com" = .ok (some 200) ∧
    D1.waitForSelector "#accept" 10000 = .ok (some ()) ∧
    interact D1 E0 (some planV) =
      (⟨false, some "Unexpected error: 'url'", some "UnexpectedError"⟩, [.content]) ∧
    (interact D1 E0 (some planU)).1 =
      ⟨false, some "Unknown action type: goto", some "UnknownAction"⟩ :=
  ⟨rfl, rfl, by decide, by decide⟩

/-- C3: for every action record and every driver behavior, the call
boundary of `execute_action` returns an `ActionResult` — never an escaping
exception (`execute_action_py` always yields `.ok`) — and whenever the body
raises, the returned result is the failed `ActionError` record the outer
handler builds. -/
theorem c3_executor_never_raises (d : Driver) (env : Env) (a : ActionDict) :
    execute_action_py d env a = .ok (execute_action d env a) ∧
    ∀ e, (execute_action_body d env a).res = .error e →
      (execute_action d env a).success = false ∧
      execute_action d env a = actionErrorResult e := by
  constructor
  · unfold execute_action_py execute_action
    cases (execute_action_body d env a).res <;> rfl
  · intro e he
    unfold execute_action
    rw [he]
    exact ⟨rfl, rfl⟩

/-- Witness for C3: a navigation action with a missing `value` key raises
`KeyError` internally, and the boundary returns the failed result. -/
theorem c3_executor_never_raises_witness :
    execute_action_py D1 E0 A3w =
      .ok ⟨false, some "Action failed: 'value'", some "ActionError"⟩ := by
  have h := c3_executor_never_raises D1 E0 A3w
  have h2 := (h.2 (keyErr "value") rfl).2
  rw [h.1, h2]
  rfl

/-- C6 counterexample: on raw text whose cleaned form fails the strict
parse but contains a balanced, parseable `{...}` span, the code returns an
empty dict, not the span's value — there is no balanced-span retry
(the retry described by the spec is `extract_json_spec`). -/
theorem c6_counterexample :
    pyJsonParseL (cleanedText "plan: \x7b\"a\": 1\x7d done") = none ∧
    extract_json_from_text "plan: \x7b\"a\": 1\x7d done" = Json.obj [] ∧
    extract_json_spec "plan: \x7b\"a\": 1\x7d done" = Json.obj [("a", Json.num 1)] ∧
    Json.obj [] ≠ Json.obj [("a", Json.num 1)] :=
  ⟨rfl, rfl, rfl, by simp⟩

/-- C6 amended: on every raw plan text whose cleaned form fails the strict
JSON parse, `_extract_json_from_text` gives up at once and returns an empty
dict; it performs no balanced-span search and no retry. -/
theorem c6_no_retry_on_parse_failure (text : String)
    (h : pyJsonParseL (cleanedText text) = none) :
    extract_json_from_text text = Json.obj [] := by
  unfold extract_json_from_text
  rw [h]

/-- Witness for C6's amended theorem at the unparseable text "nope". -/
theorem c6_no_retry_witness :
    pyJsonParseL (cleanedText "nope") = none ∧
    extract_json_from_text "nope" = Json.obj [] :=
  ⟨rfl, c6_no_retry_on_parse_failure "nope" rfl⟩

/-- C7: a well-formed JSON plan text (no fences, no trailing commas, no
prose) containing the byte pair `,}` inside a string literal is corrupted
by the normalizer: the trailing-comma regex rewrites inside the string, so
the output differs from the value the text denotes.  This evaluates the
code at the claim's failing input. -/
theorem c7_cleanup_mutates_valid_json :
    pyJsonParse "\x7b\"plan_description\": \"a,\x7d\", \"steps\": []\x7d" =
      some (Json.obj [("plan_description", Json.str "a,\x7d"), ("steps", Json.arr [])]) ∧
    extract_json_from_text "\x7b\"plan_description\": \"a,\x7d\", \"steps\": []\x7d" =
      Json.obj [("plan_description", Json.str "a\x7d"), ("steps", Json.arr [])] ∧
    ("a,\x7d" : String) ≠ "a\x7d" :=
  ⟨rfl, rfl, by decide⟩

/-- C10: a `click` step fans out into one single-selector action per
candidate (key `selector`), an `input` step keeps only its first selector,
and with more than one click candidate the action list is strictly longer
than the plan's step list. -/
theorem c10_click_fanout (ss srest : List String) (s0 txt : String) :
    parse_plan { steps := some (
      [ { action_type := some "click", details := some { selectors := some ss } },
        { action_type := some "input",
          details := some { selectors := some (s0 :: srest), text := some txt } } ]) }
    = .ok (ss.map (fun s => { action := some "click", selector := some s }) ++
           [{ action := some "fill", selector := some s0, text := some txt }]) ∧
    (ss.map (fun s => ({ action := some "click", selector := some s } : ActionDict)) ++
       [({ action := some "fill", selector := some s0, text := some txt } : ActionDict)]).length
      = ss.length + 1 ∧
    (1 < ss.length →
      ([ { action_type := some "click", details := some { selectors := some ss } },
         { action_type := some "input",
           details := some { selectors := some (s0 :: srest), text := some txt } } ] :
        List StepDict).length < ss.length + 1) := by
  refine ⟨?_, ?_, ?_⟩
  · simp [parse_plan, parseSteps, parseStep]
  · simp
  · intro h
    simp
    omega

/-- Witness for C10 with two click candidates: the two-step plan yields
three actions. -/
theorem c10_click_fanout_witness :
    ([ { action_type := some "click", details := some { selectors := some ["#x", "#y"] } },
       { action_type := some "input",
         details := some { selectors := some ("#z" :: []), text := some "hi" } } ] :
      List StepDict).length < ["#x", "#y"].length + 1 :=
  (c10_click_fanout ["#x", "#y"] [] "#z" "hi").2.2 (by decide)



/-- Unfolding of one step of the click-candidate loop. -/
theorem clickLoop_cons (d : Driver) (sel : String) (rest : List String) :
    clickLoop d (sel :: rest) =
      if clickCand d sel then (⟨true, none, none⟩, clickCandCalls d sel)
      else ((clickLoop d rest).1, clickCandCalls d sel ++ (clickLoop d rest).2) := by
  rcases hrec : clickLoop d rest with ⟨r, tr⟩
  cases hw : d.waitForSelector sel 10000 with
  | error e => simp [clickLoop, clickCand, clickCandCalls, hw, hrec]
  | ok el =>
    cases el with
    | none => simp [clickLoop, clickCand, clickCandCalls, hw, hrec]
    | some u =>
      cases hc : d.clickEl sel with
      | error e => simp [clickLoop, clickCand, clickCandCalls, hw, hc, hrec]
      | ok u2 => simp [clickLoop, clickCand, clickCandCalls, hw, hc, hrec]



/-- Characterization of the click-candidate loop: either some candidate is
the first success (earlier ones all fail, later ones are never called), or
all candidates fail and the loop reports failure over the full trace. -/
theorem clickLoop_char (d : Driver) (sels : List String) :
    (∃ pre x post, sels = pre ++ x :: post ∧ (∀ y ∈ pre, clickCand d y = false) ∧
       clickCand d x = true ∧
       clickLoop d sels = (⟨true, none, none⟩, (pre ++ [x]).flatMap (clickCandCalls d)))
    ∨ ((∀ y ∈ sels, clickCand d y = false) ∧
       clickLoop d sels = (⟨false, some "Click action failed for all selectors", none⟩,
          sels.flatMap (clickCandCalls d))) := by
  induction sels with
  | nil => exact .inr ⟨by simp, by simp [clickLoop]⟩
  | cons sel rest ih =>
    by_cases hc : clickCand d sel = true
    · exact .inl ⟨[], sel, rest, rfl, by simp, hc, by simp [clickLoop_cons, hc]⟩
    · have hcf : clickCand d sel = false := by
        simpa using hc
      rcases ih with ⟨pre, x, post, hsels, hpre, hx, hloop⟩ | ⟨hall, hloop⟩
      · refine .inl ⟨sel :: pre, x, post, by rw [hsels]; rfl, ?_, hx, ?_⟩
        · intro y hy
          rcases List.mem_cons.mp hy with rfl | hy
          · exact hcf
          · exact hpre y hy
        · simp [clickLoop_cons, hcf, hloop]
      · refine .inr ⟨?_, ?_⟩
        · intro y hy
          rcases List.mem_cons.mp hy with rfl | hy
          · exact hcf
          · exact hall y hy
        · simp [clickLoop_cons, hcf, hloop]



/-- Bridge from `execute_action` on a click action to the click loop. -/
theorem execute_click_eq (d : Driver) (env : Env) (a : ActionDict) (sels : List String)
    (ha : a.action = some "click") (hs : a.selectors = some sels) :
    execute_action d env a = (clickLoop d sels).1 ∧
    execute_calls d env a = (clickLoop d sels).2 := by
  rcases hrec : clickLoop d sels with ⟨r, tr⟩
  cases hv : a.value with
  | none =>
    unfold execute_action execute_calls execute_action_body
    simp [ha, hv, hs, hrec]
  | some v =>
    unfold execute_action execute_calls execute_action_body
    simp [ha, hv, hs, hrec]

/-- The submit fallback never mutates the action dict. -/
theorem submitBody_post (d : Driver) (a : ActionDict) (pre : List DCall) :
    (submitBody d a pre).post = a := by
  unfold submitBody
  repeat' split
  all_goals rfl

/-- Without a `value` key, `execute_action` leaves the action dict alone. -/
theorem execute_post_of_value_none (d : Driver) (env : Env) (a : ActionDict)
    (hv : a.value = none) : execute_post d env a = a := by
  unfold execute_post execute_action_body
  cases ha : a.action with
  | none => simp
  | some atype =>
    simp [hv]
    repeat' split
    all_goals first
      | rfl
      | apply submitBody_post



/-- Unfolding of one step of the type-candidate loop. -/
theorem typeLoop_cons (d : Driver) (v : Option String) (sel : String) (rest : List String) :
    typeLoop d v (sel :: rest) =
      if typeCand d v sel then (⟨true, none, none⟩, typeCandCalls d v sel)
      else ((typeLoop d v rest).1, typeCandCalls d v sel ++ (typeLoop d v rest).2) := by
  rcases hrec : typeLoop d v rest with ⟨r, tr⟩
  cases hw : d.waitForSelector sel 10000 with
  | error e => simp [typeLoop, typeCand, typeCandCalls, hw, hrec]
  | ok el =>
    cases el with
    | none => simp [typeLoop, typeCand, typeCandCalls, hw, hrec]
    | some u =>
      cases v with
      | none => simp [typeLoop, typeCand, typeCandCalls, hw, hrec]
      | some tv =>
        cases hc : d.fillEl sel tv with
        | error e => simp [typeLoop, typeCand, typeCandCalls, hw, hc, hrec]
        | ok u2 => simp [typeLoop, typeCand, typeCandCalls, hw, hc, hrec]

/-- Characterization of the type-candidate loop, as for click. -/
theorem typeLoop_char (d : Driver) (v : Option String) (sels : List String) :
    (∃ pre x post, sels = pre ++ x :: post ∧ (∀ y ∈ pre, typeCand d v y = false) ∧
       typeCand d v x = true ∧
       typeLoop d v sels = (⟨true, none, none⟩, (pre ++ [x]).flatMap (typeCandCalls d v)))
    ∨ ((∀ y ∈ sels, typeCand d v y = false) ∧
       typeLoop d v sels = (⟨false, some "Type action failed for all selectors", none⟩,
          sels.flatMap (typeCandCalls d v))) := by
  induction sels with
  | nil => exact .inr ⟨by simp, by simp [typeLoop]⟩
  | cons sel rest ih =>
    by_cases hc : typeCand d v sel = true
    · exact .inl ⟨[], sel, rest, rfl, by simp, hc, by simp [typeLoop_cons, hc]⟩
    · have hcf : typeCand d v sel = false := by simpa using hc
      rcases ih with ⟨pre, x, post, hsels, hpre, hx, hloop⟩ | ⟨hall, hloop⟩
      · refine .inl ⟨sel :: pre, x, post, by rw [hsels]; rfl, ?_, hx, ?_⟩
        · intro y hy
          rcases List.mem_cons.mp hy with rfl | hy
          · exact hcf
          · exact hpre y hy
        · simp [typeLoop_cons, hcf, hloop]
      · refine .inr ⟨?_, ?_⟩
        · intro y hy
          rcases List.mem_cons.mp hy with rfl | hy
          · exact hcf
          · exact hall y hy
        · simp [typeLoop_cons, hcf, hloop]

/-- Bridge from `execute_action` on a type action to the type loop, with
the in-place ENV resolution applied to the value. -/
theorem execute_type_eq (d : Driver) (env : Env) (a : ActionDict) (sels : List String)
    (ha : a.action = some "type") (hs : a.selectors = some sels) :
    execute_action d env a =
      (typeLoop d (a.value.map (resolve_env_value env)) sels).1 ∧
    execute_calls d env a =
      (typeLoop d (a.value.map (resolve_env_value env)) sels).2 := by
  cases hv : a.value with
  | none =>
    rcases hrec : typeLoop d none sels with ⟨r, tr⟩
    unfold execute_action execute_calls execute_action_body
    simp [ha, hv, hs, hrec]
  | some v =>
    rcases hrec : typeLoop d (some (resolve_env_value env v)) sels with ⟨r, tr⟩
    unfold execute_action execute_calls execute_action_body
    simp [ha, hv, hs, hrec]

/-- Unfolding of one step of the wait-candidate loop, given the driver
returns or times out on this selector. -/
theorem waitSelLoop_cons (d : Driver) (t : Int) (sel : String) (rest : List String)
    (h : visibleOrTimeout d t sel = true) :
    waitSelLoop d t (sel :: rest) =
      if waitCand d t sel then (.ok ⟨true, none, none⟩, [.waitForSelector sel t])
      else ((waitSelLoop d t rest).1, .waitForSelector sel t :: (waitSelLoop d t rest).2) := by
  rcases hrec : waitSelLoop d t rest with ⟨r, tr⟩
  cases hw : d.waitForSelector sel t with
  | error e =>
    have he : e.isTimeout = true := by
      simpa [visibleOrTimeout, hw] using h
    simp [waitSelLoop, waitCand, hw, he, hrec]
  | ok el => simp [waitSelLoop, waitCand, hw, hrec]

/-- Characterization of the wait-candidate loop when every candidate wait
returns or times out: first visible candidate wins, else failure. -/
theorem waitSelLoop_char (d : Driver) (t : Int) (sels : List String)
    (hvt : ∀ s ∈ sels, visibleOrTimeout d t s = true) :
    (∃ pre x post, sels = pre ++ x :: post ∧ (∀ y ∈ pre, waitCand d t y = false) ∧
       waitCand d t x = true ∧
       waitSelLoop d t sels = (.ok ⟨true, none, none⟩,
         (pre ++ [x]).map (fun s => .waitForSelector s t)))
    ∨ ((∀ y ∈ sels, waitCand d t y = false) ∧
       waitSelLoop d t sels = (.ok ⟨false, some "Wait condition not met", none⟩,
          sels.map (fun s => .waitForSelector s t))) := by
  induction sels with
  | nil => exact .inr ⟨by simp, by simp [waitSelLoop]⟩
  | cons sel rest ih =>
    have hsel : visibleOrTimeout d t sel = true := hvt sel (by simp)
    have hrest : ∀ s ∈ rest, visibleOrTimeout d t s = true := fun s hs => hvt s (by simp [hs])
    by_cases hc : waitCand d t sel = true
    · exact .inl ⟨[], sel, rest, rfl, by simp, hc, by simp [waitSelLoop_cons, hsel, hc]⟩
    · have hcf : waitCand d t sel = false := by simpa using hc
      rcases ih hrest with ⟨pre, x, post, hsels, hpre, hx, hloop⟩ | ⟨hall, hloop⟩
      · refine .inl ⟨sel :: pre, x, post, by rw [hsels]; rfl, ?_, hx, ?_⟩
        · intro y hy
          rcases List.mem_cons.mp hy with rfl | hy
          · exact hcf
          · exact hpre y hy
        · simp [waitSelLoop_cons, hsel, hcf, hloop]
      · refine .inr ⟨?_, ?_⟩
        · intro y hy
          rcases List.mem_cons.mp hy with rfl | hy
          · exact hcf
          · exact hall y hy
        · simp [waitSelLoop_cons, hsel, hcf, hloop]



/-- Bridge from `execute_action` on a wait action with candidates to the
wait loop. -/
theorem execute_wait_sel_eq (d : Driver) (env : Env) (a : ActionDict) (v : String) (t : Int)
    (s : String) (ss : List String)
    (ha : a.action = some "wait") (hv : a.value = some v) (hs : a.selectors = some (s :: ss))
    (ht : pyInt (resolve_env_value env v) = some t) :
    (execute_action_body d env a).res = (waitSelLoop d t (s :: ss)).1 ∧
    execute_calls d env a = (waitSelLoop d t (s :: ss)).2 := by
  rcases hrec : waitSelLoop d t (s :: ss) with ⟨r, tr⟩
  unfold execute_calls execute_action_body
  simp [ha, hv, hs, ht, hrec]

/-- A wait action with an empty or missing selector list sleeps
`value` seconds and succeeds, with no selector lookup in the trace. -/
theorem execute_wait_sleep (d : Driver) (env : Env) (a : ActionDict) (v : String) (t : Int)
    (ha : a.action = some "wait") (hv : a.value = some v)
    (hs : a.selectors = none ∨ a.selectors = some [])
    (ht : pyInt (resolve_env_value env v) = some t) :
    execute_action d env a = ⟨true, none, none⟩ ∧
    execute_calls d env a = [.sleep (t * 1000)] := by
  unfold execute_action execute_calls execute_action_body
  rcases hs with hs | hs <;> simp [ha, hv, hs, ht]

/-- Unfolding of one step of `execute_plan`'s loop on a well-formed step. -/
theorem planLoop_cons (d : Driver) (env : Env) (st : StepDict) (rest : List StepDict)
    (atype : String) (det : ActionDict)
    (h1 : st.action_type = some atype) (h2 : st.details = some det) :
    planLoop d env (st :: rest) =
      if (stepRes d env st).success then
        ((planLoop d env rest).1, stepCallsOf d env st ++ (planLoop d env rest).2)
      else (stepRes d env st, stepCallsOf d env st) := by
  rcases hrec : planLoop d env rest with ⟨r, tr⟩
  unfold planLoop stepRes stepCallsOf stepAction
  cases h : (execute_action d env (stepToAction atype det)).success <;>
    simp [h1, h2, h, hrec]

/-- Characterization of `execute_plan`'s loop on well-formed steps:
success iff every step's action succeeds; an all-success run returns the
plan-success record over the concatenated trace; the first failing step's
result is returned unchanged and nothing after it runs. -/
theorem planLoop_char (d : Driver) (env : Env) (steps : List StepDict)
    (hwf : ∀ st ∈ steps, wfStep st) :
    ((planLoop d env steps).1.success = true ↔
        ∀ st ∈ steps, (stepRes d env st).success = true) ∧
    ((∀ st ∈ steps, (stepRes d env st).success = true) →
       planLoop d env steps = (⟨true, some "Plan executed successfully", none⟩,
         steps.flatMap (stepCallsOf d env))) ∧
    (∀ pre st post, steps = pre ++ st :: post →
       (∀ s ∈ pre, (stepRes d env s).success = true) → (stepRes d env st).success = false →
       planLoop d env steps =
         (stepRes d env st, pre.flatMap (stepCallsOf d env) ++ stepCallsOf d env st)) := by
  induction steps with
  | nil =>
    refine ⟨by simp [planLoop], by simp [planLoop], ?_⟩
    intro pre st post hN
    exact absurd hN (by simp)
  | cons st0 rest ih =>
    obtain ⟨hat, hdet⟩ := hwf st0 (by simp)
    obtain ⟨atype, h1⟩ := Option.isSome_iff_exists.mp hat
    obtain ⟨det, h2⟩ := Option.isSome_iff_exists.mp hdet
    have hrest : ∀ st ∈ rest, wfStep st := fun st hs => hwf st (by simp [hs])
    obtain ⟨ih1, ih2, ih3⟩ := ih hrest
    have hcons := planLoop_cons d env st0 rest atype det h1 h2
    refine ⟨?_, ?_, ?_⟩
    · cases hs : (stepRes d env st0).success with
      | true =>
        rw [hcons]
        simp only [hs, if_true]
        constructor
        · intro h st hst
          rcases List.mem_cons.mp hst with rfl | hst
          · exact hs
          · exact (ih1.mp h) st hst
        · intro h
          exact ih1.mpr fun st hst => h st (by simp [hst])
      | false =>
        rw [hcons]
        simp only [hs, if_false]
        constructor
        · intro h
          exact absurd h (by simp [hs])
        · intro h
          exact absurd (h st0 (by simp)) (by simp [hs])
    · intro h
      have hs : (stepRes d env st0).success = true := h st0 (by simp)
      rw [hcons]
      simp only [hs, if_true]
      rw [ih2 fun st hst => h st (by simp [hst])]
      simp
    · intro pre st post hdecomp hpre hst
      cases pre with
      | nil =>
        simp only [List.nil_append] at hdecomp
        obtain ⟨rfl, rfl⟩ : st0 = st ∧ rest = post := by
          injection hdecomp with hA hB
          exact ⟨hA, hB⟩
        rw [hcons]
        simp [hst]
      | cons p0 pre' =>
        obtain ⟨rfl, hdecomp'⟩ : st0 = p0 ∧ rest = pre' ++ st :: post := by
          injection hdecomp with hA hB
          exact ⟨hA, hB⟩
        have hp0 : (stepRes d env st0).success = true := hpre st0 (by simp)
        rw [hcons]
        simp only [hp0, if_true]
        rw [ih3 pre' st post hdecomp' (fun s hs => hpre s (by simp [hs])) hst]
        simp



/-- C2: for every well-formed plan, the aggregate result succeeds iff every
executed action's result succeeds; on an all-success run the loop returns
the plan-success record having executed every step; at the first action
whose result has `success = false` the loop stops, executes no subsequent
step (the driver-call trace covers exactly the prefix through the failing
step), and returns that `ActionResult` unchanged as the plan's outcome. -/
theorem c2_plan_fail_fast (d : Driver) (env : Env) (steps : List StepDict)
    (hwf : ∀ st ∈ steps, wfStep st) :
    ((execute_plan d env { steps := some steps }).1.success = true ↔
        ∀ st ∈ steps, (stepRes d env st).success = true) ∧
    ((∀ st ∈ steps, (stepRes d env st).success = true) →
       execute_plan d env { steps := some steps } =
         (⟨true, some "Plan executed successfully", none⟩,
          steps.flatMap (stepCallsOf d env))) ∧
    (∀ pre st post, steps = pre ++ st :: post →
       (∀ s ∈ pre, (stepRes d env s).success = true) → (stepRes d env st).success = false →
       execute_plan d env { steps := some steps } =
         (stepRes d env st, pre.flatMap (stepCallsOf d env) ++ stepCallsOf d env st)) :=
  planLoop_char d env steps hwf

/-- Witness for C2: a one-step plan whose click times out returns that
click's failure result as the plan outcome. -/
theorem c2_plan_fail_fast_witness :
    execute_plan DT E0 { steps := some [clickStepA] } =
      (⟨false, some "Click action failed for all selectors", none⟩,
       [.waitForSelector "#accept" 10000]) := by
  have h := (c2_plan_fail_fast DT E0 [clickStepA]
      (by intro st hst; rcases List.mem_singleton.mp hst with rfl; exact ⟨rfl, rfl⟩)).2.2
    [] clickStepA [] rfl (by simp) (by decide)
  rw [h]
  decide



/-- C4 amended: for every click or type action, the executor tries the
candidates in listed order, returns a successful result at the first
candidate that becomes visible and is acted on — the trace covers exactly
the earlier (failing) candidates plus that one, so the remaining candidates
are never touched — and when all candidates fail it returns a failed result
whose message states the action failed for all selectors.  That failure
result carries no `error_type` field at all (amendment: the claim's
`error_kind = ActionFailed` is absent; see `c4_counterexample`). -/
theorem c4_selector_fallback (d : Driver) (env : Env) :
    (∀ a sels, a.action = some "click" → a.selectors = some sels →
      ((∃ pre x post, sels = pre ++ x :: post ∧ (∀ y ∈ pre, clickCand d y = false) ∧
          clickCand d x = true ∧
          execute_action d env a = ⟨true, none, none⟩ ∧
          execute_calls d env a = (pre ++ [x]).flatMap (clickCandCalls d))
       ∨ ((∀ y ∈ sels, clickCand d y = false) ∧
          execute_action d env a =
            ⟨false, some "Click action failed for all selectors", none⟩ ∧
          execute_calls d env a = sels.flatMap (clickCandCalls d)))) ∧
    (∀ a sels, a.action = some "type" → a.selectors = some sels →
      ((∃ pre x post, sels = pre ++ x :: post ∧
          (∀ y ∈ pre, typeCand d (a.value.map (resolve_env_value env)) y = false) ∧
          typeCand d (a.value.map (resolve_env_value env)) x = true ∧
          execute_action d env a = ⟨true, none, none⟩ ∧
          execute_calls d env a =
            (pre ++ [x]).flatMap (typeCandCalls d (a.value.map (resolve_env_value env))))
       ∨ ((∀ y ∈ sels, typeCand d (a.value.map (resolve_env_value env)) y = false) ∧
          execute_action d env a =
            ⟨false, some "Type action failed for all selectors", none⟩ ∧
          execute_calls d env a =
            sels.flatMap (typeCandCalls d (a.value.map (resolve_env_value env)))))) := by
  constructor
  · intro a sels ha hs
    obtain ⟨he, hc⟩ := execute_click_eq d env a sels ha hs
    rcases clickLoop_char d sels with ⟨pre, x, post, h1, h2, h3, h4⟩ | ⟨h1, h2⟩
    · exact .inl ⟨pre, x, post, h1, h2, h3, by rw [he, h4], by rw [hc, h4]⟩
    · exact .inr ⟨h1, by rw [he, h2], by rw [hc, h2]⟩
  · intro a sels ha hs
    obtain ⟨he, hc⟩ := execute_type_eq d env a sels ha hs
    rcases typeLoop_char d (a.value.map (resolve_env_value env)) sels with
      ⟨pre, x, post, h1, h2, h3, h4⟩ | ⟨h1, h2⟩
    · exact .inl ⟨pre, x, post, h1, h2, h3, by rw [he, h4], by rw [hc, h4]⟩
    · exact .inr ⟨h1, by rw [he, h2], by rw [hc, h2]⟩

/-- Witness for C4's amended theorem: on a driver where `#a` is visible and
clickable, the click action on `[#a, #b]` resolves per the theorem. -/
theorem c4_selector_fallback_witness :
    (∃ pre x post, (["#a", "#b"] : List String) = pre ++ x :: post ∧
       (∀ y ∈ pre, clickCand D1 y = false) ∧ clickCand D1 x = true ∧
       execute_action D1 E0 A4 = ⟨true, none, none⟩ ∧
       execute_calls D1 E0 A4 = (pre ++ [x]).flatMap (clickCandCalls D1))
    ∨ ((∀ y ∈ ["#a", "#b"], clickCand D1 y = false) ∧
       execute_action D1 E0 A4 =
         ⟨false, some "Click action failed for all selectors", none⟩ ∧
       execute_calls D1 E0 A4 = ["#a", "#b"].flatMap (clickCandCalls D1)) :=
  (c4_selector_fallback D1 E0).1 A4 ["#a", "#b"] rfl rfl

/-- C4 counterexample: when every candidate of a click action fails, the
returned failed result has no `error_type` field — not the `ActionFailed`
error kind the claim asserts. -/
theorem c4_counterexample :
    execute_action DT E0 A4 =
      ⟨false, some "Click action failed for all selectors", none⟩ ∧
    (execute_action DT E0 A4).error_type = none := by
  decide



/-- C5: a wait action with a non-empty selector list (driver waits either
returning or timing out, value parsing as an integer timeout) succeeds iff
some candidate becomes visible within the caller-supplied `value`
milliseconds — first hit wins, all-timeout fails; with an empty or missing
selector list it performs no selector lookup, sleeps `value` seconds
(`value * 1000` ms) and always succeeds. -/
theorem c5_wait_semantics (d : Driver) (env : Env) :
    (∀ a v t s ss, a.action = some "wait" → a.value = some v →
       a.selectors = some (s :: ss) → pyInt (resolve_env_value env v) = some t →
       (∀ y ∈ s :: ss, visibleOrTimeout d t y = true) →
       (((execute_action d env a).success = true ↔ ∃ y ∈ s :: ss, waitCand d t y = true) ∧
        ((∃ pre x post, s :: ss = pre ++ x :: post ∧ (∀ y ∈ pre, waitCand d t y = false) ∧
            waitCand d t x = true ∧
            execute_action d env a = ⟨true, none, none⟩ ∧
            execute_calls d env a = (pre ++ [x]).map (fun y => .waitForSelector y t))
         ∨ ((∀ y ∈ s :: ss, waitCand d t y = false) ∧
            execute_action d env a = ⟨false, some "Wait condition not met", none⟩ ∧
            execute_calls d env a = (s :: ss).map (fun y => .waitForSelector y t))))) ∧
    (∀ a v t, a.action = some "wait" → a.value = some v →
       (a.selectors = none ∨ a.selectors = some []) →
       pyInt (resolve_env_value env v) = some t →
       execute_action d env a = ⟨true, none, none⟩ ∧
       execute_calls d env a = [.sleep (t * 1000)]) := by
  constructor
  · intro a v t s ss ha hv hs ht hvt
    obtain ⟨hres, hcalls⟩ := execute_wait_sel_eq d env a v t s ss ha hv hs ht
    have hexec : execute_action d env a =
        (match (waitSelLoop d t (s :: ss)).1 with
         | .ok r => r
         | .error e => actionErrorResult e) := by
      unfold execute_action
      rw [hres]
    rcases waitSelLoop_char d t (s :: ss) hvt with ⟨pre, x, post, h1, h2, h3, h4⟩ | ⟨h1, h2⟩
    · have he : execute_action d env a = ⟨true, none, none⟩ := by rw [hexec, h4]
      refine ⟨?_, .inl ⟨pre, x, post, h1, h2, h3, he, by rw [hcalls, h4]⟩⟩
      rw [he]
      simp only [true_iff]
      exact ⟨x, by rw [h1]; simp, h3⟩
    · have he : execute_action d env a = ⟨false, some "Wait condition not met", none⟩ := by
        rw [hexec, h2]
      refine ⟨?_, .inr ⟨h1, he, by rw [hcalls, h2]⟩⟩
      rw [he]
      constructor
      · intro h
        exact absurd h (by simp)
      · rintro ⟨y, hy, hcand⟩
        rw [h1 y hy] at hcand
        exact absurd hcand (by simp)
  · intro a v t ha hv hs ht
    exact execute_wait_sleep d env a v t ha hv hs ht

/-- Witness for C5: the selector-less wait with value "2" sleeps 2000 ms
and succeeds. -/
theorem c5_wait_semantics_witness :
    execute_action D1 E0 A5 = ⟨true, none, none⟩ ∧
    execute_calls D1 E0 A5 = [.sleep (2 * 1000)] :=
  (c5_wait_semantics D1 E0).2 A5 "2" 2 rfl rfl (.inl rfl) (by decide)



/-- Every action `parseStep` emits lacks a `value` key. -/
theorem parseStep_value_none (st : StepDict) (acts : List ActionDict)
    (h : parseStep st = .ok acts) : ∀ a ∈ acts, a.value = none := by
  intro a ha
  rcases st with ⟨oat, odet⟩
  cases oat with
  | none => simp [parseStep] at h
  | some atype =>
    cases odet with
    | none => simp [parseStep] at h
    | some det =>
      simp only [parseStep] at h
      repeat' split at h
      all_goals try cases h
      all_goals first
        | (rcases List.mem_map.mp ha with ⟨s, hsm, rfl⟩; rfl)
        | (rcases List.mem_singleton.mp ha with rfl; rfl)
        | exact absurd ha (List.not_mem_nil a)

/-- Every action `parse_plan` emits lacks a `value` key. -/
theorem parseSteps_value_none : ∀ (steps : List StepDict) (acts : List ActionDict),
    parseSteps steps = .ok acts → ∀ a ∈ acts, a.value = none := by
  intro steps
  induction steps with
  | nil =>
    intro acts h a ha
    simp only [parseSteps] at h
    injection h with h'
    subst h'
    simp at ha
  | cons st rest ih =>
    intro acts h a ha
    simp only [parseSteps] at h
    cases hp : parseStep st with
    | error e => rw [hp] at h; cases h
    | ok l =>
      rw [hp] at h
      cases hr : parseSteps rest with
      | error e => rw [hr] at h; cases h
      | ok more =>
        rw [hr] at h
        injection h with h'
        subst h'
        rcases List.mem_append.mp ha with hl | hm
        · exact parseStep_value_none st l hp a hl
        · exact ih more hr a hm

/-- C9: every normalized action record `parse_plan` produces is unchanged
after `execute_action` returns, whatever the driver and environment do:
execution reads the parsed plan structure without writing to it. -/
theorem c9_parsed_actions_unmutated (plan : PlanDict) (acts : List ActionDict)
    (d : Driver) (env : Env) (a : ActionDict)
    (hp : parse_plan plan = .ok acts) (ha : a ∈ acts) :
    execute_post d env a = a :=
  execute_post_of_value_none d env a (parseSteps_value_none _ _ hp a ha)

/-- Witness for C9 on the one-step click plan `P9`. -/
theorem c9_parsed_actions_unmutated_witness :
    execute_post D1 E0 A9 = A9 :=
  c9_parsed_actions_unmutated P9 [A9] D1 E0 A9 rfl (List.mem_singleton.mpr rfl)



/-- Click-candidate calls never carry an action value. -/
theorem clickCandCalls_noVal (d : Driver) (sel : String) :
    ∀ c ∈ clickCandCalls d sel, usesVal c = none := by
  unfold clickCandCalls
  split
  · intro c hc
    rcases List.mem_cons.mp hc with rfl | hc
    · rfl
    · rcases List.mem_singleton.mp hc with rfl
      rfl
  · intro c hc
    rcases List.mem_singleton.mp hc with rfl
    rfl

/-- The click loop's trace never carries an action value. -/
theorem clickLoop_calls_noVal (d : Driver) :
    ∀ sels, ∀ c ∈ (clickLoop d sels).2, usesVal c = none := by
  intro sels
  induction sels with
  | nil =>
    intro c hc
    simp [clickLoop] at hc
  | cons sel rest ih =>
    intro c hc
    rw [clickLoop_cons] at hc
    by_cases h : clickCand d sel = true
    · rw [if_pos h] at hc
      exact clickCandCalls_noVal d sel c hc
    · rw [if_neg h] at hc
      rcases List.mem_append.mp hc with hc | hc
      · exact clickCandCalls_noVal d sel c hc
      · exact ih c hc

/-- A type-candidate call carrying a value carries exactly the loop's. -/
theorem typeCandCalls_val (d : Driver) (v : Option String) (sel : String) :
    ∀ c ∈ typeCandCalls d v sel, ∀ w, usesVal c = some w → v = some w := by
  unfold typeCandCalls
  split
  · split
    · intro c hc w hw
      rcases List.mem_singleton.mp hc with rfl
      cases hw
    · intro c hc w hw
      rcases List.mem_cons.mp hc with rfl | hc
      · cases hw
      · rcases List.mem_singleton.mp hc with rfl
        injection hw with hw'
        rw [hw']
  · intro c hc w hw
    rcases List.mem_singleton.mp hc with rfl
    cases hw

/-- The type loop's trace carries no value other than the loop's. -/
theorem typeLoop_calls_val (d : Driver) (v : Option String) :
    ∀ sels, ∀ c ∈ (typeLoop d v sels).2, ∀ w, usesVal c = some w → v = some w := by
  intro sels
  induction sels with
  | nil =>
    intro c hc
    simp [typeLoop] at hc
  | cons sel rest ih =>
    intro c hc
    rw [typeLoop_cons] at hc
    by_cases h : typeCand d v sel = true
    · rw [if_pos h] at hc
      exact typeCandCalls_val d v sel c hc
    · rw [if_neg h] at hc
      rcases List.mem_append.mp hc with hc | hc
      · exact typeCandCalls_val d v sel c hc
      · exact ih c hc

/-- The submit fallback loop's trace never carries an action value. -/
theorem submitLoop_calls_noVal (d : Driver) :
    ∀ sels, ∀ c ∈ (submitLoop d sels).2, usesVal c = none := by
  intro sels
  induction sels with
  | nil =>
    intro c hc
    simp [submitLoop] at hc
  | cons sel rest ih =>
    intro c hc
    unfold submitLoop at hc
    rcases hrec : submitLoop d rest with ⟨r, tr⟩
    rw [hrec] at hc
    cases hw : d.waitForSelector sel 10000 with
    | error e =>
      rw [hw] at hc
      simp at hc
      rcases hc with rfl | hc
      · rfl
      · exact ih c (by rw [hrec]; exact hc)
    | ok el =>
      cases el with
      | none =>
        rw [hw] at hc
        simp at hc
        rcases hc with rfl | hc
        · rfl
        · exact ih c (by rw [hrec]; exact hc)
      | some u =>
        rw [hw] at hc
        cases hcl : d.clickEl sel with
        | error e =>
          rw [hcl] at hc
          simp at hc
          rcases hc with rfl | rfl | hc
          · rfl
          · rfl
          · exact ih c (by rw [hrec]; exact hc)
        | ok u2 =>
          rw [hcl] at hc
          cases hls : d.waitLoadState "networkidle" with
          | error e =>
            rw [hls] at hc
            simp at hc
            rcases hc with rfl | rfl | rfl | hc
            · rfl
            · rfl
            · rfl
            · exact ih c (by rw [hrec]; exact hc)
          | ok u3 =>
            rw [hls] at hc
            simp at hc
            rcases hc with rfl | rfl | rfl
            · rfl
            · rfl
            · rfl

/-- The wait loop's trace never carries an action value. -/
theorem waitSelLoop_calls_noVal (d : Driver) (t : Int) :
    ∀ sels, ∀ c ∈ (waitSelLoop d t sels).2, usesVal c = none := by
  intro sels
  induction sels with
  | nil =>
    intro c hc
    simp [waitSelLoop] at hc
  | cons sel rest ih =>
    intro c hc
    unfold waitSelLoop at hc
    rcases hrec : waitSelLoop d t rest with ⟨r, tr⟩
    rw [hrec] at hc
    cases hw : d.waitForSelector sel t with
    | error e =>
      rw [hw] at hc
      by_cases he : e.isTimeout = true
      · simp [he] at hc
        rcases hc with rfl | hc
        · rfl
        · exact ih c (by rw [hrec]; exact hc)
      · simp [he] at hc
        rcases hc with rfl
        rfl
    | ok el =>
      rw [hw] at hc
      simp at hc
      rcases hc with rfl
      rfl



/-- Every value-carrying driver call `execute_action` makes carries either
the ENV-resolved action value or the literal Enter key of the submit
branch. -/
theorem execute_calls_vals (d : Driver) (env : Env) (a : ActionDict) (atype v : String)
    (ha : a.action = some atype) (hv : a.value = some v) :
    ∀ c ∈ execute_calls d env a, ∀ w, usesVal c = some w →
      w = resolve_env_value env v ∨ w = "Enter" := by
  intro c hc w hw
  unfold execute_calls execute_action_body at hc
  simp only [ha, hv] at hc
  by_cases h1 : atype = "navigation"
  · subst h1
    rw [if_pos rfl] at hc
    cases hg : d.goto (resolve_env_value env v) with
    | error e =>
      simp [hg] at hc
      subst hc
      injection hw with hw'
      exact .inl hw'.symm
    | ok resp =>
      cases hl : d.waitLoadState "domcontentloaded" with
      | error e =>
        simp [hg, hl] at hc
        rcases hc with rfl | rfl
        · injection hw with hw'
          exact .inl hw'.symm
        · cases hw
      | ok u =>
        simp [hg, hl] at hc
        rcases hc with rfl | rfl
        · injection hw with hw'
          exact .inl hw'.symm
        · cases hw
  · rw [if_neg h1] at hc
    by_cases h2 : atype = "click"
    · subst h2
      rw [if_pos rfl] at hc
      cases hsel : a.selectors with
      | none =>
        simp [hsel] at hc
      | some sels =>
        rcases hcl : clickLoop d sels with ⟨r, tr⟩
        simp [hsel, hcl] at hc
        have hnone := clickLoop_calls_noVal d sels c (by rw [hcl]; exact hc)
        rw [hnone] at hw
        cases hw
    · rw [if_neg h2] at hc
      by_cases h3 : atype = "type"
      · subst h3
        rw [if_pos rfl] at hc
        cases hsel : a.selectors with
        | none =>
          simp [hsel] at hc
        | some sels =>
          rcases htl : typeLoop d (some (resolve_env_value env v)) sels with ⟨r, tr⟩
          simp [hsel, htl] at hc
          have hval := typeLoop_calls_val d (some (resolve_env_value env v)) sels c
            (by rw [htl]; exact hc) w hw
          injection hval with hval'
          exact .inl hval'.symm
      · rw [if_neg h3] at hc
        by_cases h4 : atype = "wait"
        · subst h4
          rw [if_pos rfl] at hc
          cases hsel : a.selectors with
          | none =>
            cases hpi : pyInt (resolve_env_value env v) with
            | none => simp [hsel, hpi] at hc
            | some t =>
              simp [hsel, hpi] at hc
              subst hc
              cases hw
          | some sels =>
            cases sels with
            | nil =>
              cases hpi : pyInt (resolve_env_value env v) with
              | none => simp [hsel, hpi] at hc
              | some t =>
                simp [hsel, hpi] at hc
                subst hc
                cases hw
            | cons s ss =>
              cases hpi : pyInt (resolve_env_value env v) with
              | none => simp [hsel, hpi] at hc
              | some t =>
                rcases hwl : waitSelLoop d t (s :: ss) with ⟨r, tr⟩
                simp [hsel, hpi, hwl] at hc
                have hnone := waitSelLoop_calls_noVal d t (s :: ss) c (by rw [hwl]; exact hc)
                rw [hnone] at hw
                cases hw
        · rw [if_neg h4] at hc
          by_cases h5 : atype = "submit"
          · subst h5
            rw [if_pos rfl] at hc
            have hsub : ∀ (a1 : ActionDict) (pre : List DCall),
                (∀ c2 ∈ pre, usesVal c2 = none ∨ c2 = .press "Enter") →
                c ∈ (submitBody d a1 pre).calls →
                w = resolve_env_value env v ∨ w = "Enter" := by
              intro a1 pre hpre hmem
              unfold submitBody at hmem
              cases hsel : a1.selectors with
              | none =>
                rw [hsel] at hmem
                simp at hmem
                rcases hpre c hmem with hn | rfl
                · rw [hn] at hw
                  cases hw
                · injection hw with hw'
                  exact .inr hw'.symm
              | some sels =>
                rcases hsl : submitLoop d sels with ⟨r, tr⟩
                rw [hsel] at hmem
                simp [hsl] at hmem
                rcases hmem with hmem | hmem
                · rcases hpre c hmem with hn | rfl
                  · rw [hn] at hw
                    cases hw
                  · injection hw with hw'
                    exact .inr hw'.symm
                · have hnone := submitLoop_calls_noVal d sels c (by rw [hsl]; exact hmem)
                  rw [hnone] at hw
                  cases hw
            cases hp : d.press "Enter" with
            | error e =>
              simp only [hp] at hc
              exact hsub _ [.press "Enter"] (by intro c2 hc2; rcases List.mem_singleton.mp hc2 with rfl; exact .inr rfl) hc
            | ok u =>
              cases hl : d.waitLoadState "networkidle" with
              | error e =>
                simp only [hp, hl] at hc
                exact hsub _ [.press "Enter", .waitLoadState "networkidle"]
                  (by
                    intro c2 hc2
                    rcases List.mem_cons.mp hc2 with rfl | hc2
                    · exact .inr rfl
                    · rcases List.mem_singleton.mp hc2 with rfl
                      exact .inl rfl) hc
              | ok u2 =>
                simp [hp, hl] at hc
                rcases hc with rfl | rfl
                · injection hw with hw'
                  exact .inr hw'.symm
                · cases hw
          · rw [if_neg h5] at hc
            by_cases h6 : atype = "press"
            · subst h6
              rw [if_pos rfl] at hc
              cases hp : d.press (resolve_env_value env v) with
              | error e =>
                simp [hp] at hc
                subst hc
                injection hw with hw'
                exact .inl hw'.symm
              | ok u =>
                simp [hp] at hc
                subst hc
                injection hw with hw'
                exact .inl hw'.symm
            · rw [if_neg h6] at hc
              simp at hc



/-- When the separator occurs nowhere in the input, the split scan returns
the single segment. -/
theorem pySplitGo_no_occ (s0 : Char) (stail : List Char) :
    ∀ (fuel : Nat) (l acc : List Char), l.length < fuel →
      ¬ ((s0 :: stail) <:+: l) →
      pySplitGo s0 stail fuel acc l = [acc.reverse ++ l] := by
  intro fuel
  induction fuel with
  | zero =>
    intro l acc hlen hocc
    exact absurd hlen (Nat.not_lt_zero _)
  | succ f ih =>
    intro l acc hlen hocc
    cases l with
    | nil => simp [pySplitGo]
    | cons c rest =>
      have hnp : (s0 :: stail).isPrefixOf (c :: rest) = false := by
        by_contra hcon
        have htrue : (s0 :: stail).isPrefixOf (c :: rest) = true := by
          revert hcon
          cases (s0 :: stail).isPrefixOf (c :: rest) <;> simp
        exact hocc (List.isPrefixOf_iff_prefix.mp htrue).isInfix
      have hocc2 : ¬ ((s0 :: stail) <:+: rest) := fun h => hocc (List.infix_cons h)
      have hlen2 : rest.length < f := by
        simp at hlen
        omega
      unfold pySplitGo
      rw [hnp]
      simp only [Bool.false_eq_true, if_false]
      rw [ih rest (c :: acc) hlen2 hocc2]
      simp

/-- Resolution of `ENV:<NAME>`: the environment value of `<NAME>` with
empty-string default, for any name not itself containing "ENV:". -/
theorem resolve_env_value_of_env (env : Env) (name : String)
    (hocc : ¬ (ENVP <:+: name.data)) :
    resolve_env_value env ("ENV:" ++ name) = getenvD env name "" := by
  have hdata : ("ENV:" ++ name).data = 'E' :: 'N' :: 'V' :: ':' :: name.data := by
    rw [String.data_append]
    rfl
  unfold resolve_env_value
  rw [hdata]
  rw [if_pos (show ENVP.isPrefixOf ('E' :: 'N' :: 'V' :: ':' :: name.data) = true from
    List.isPrefixOf_iff_prefix.mpr ⟨name.data, rfl⟩)]
  have hsplit : pySplit ENVP ('E' :: 'N' :: 'V' :: ':' :: name.data) = [[], name.data] := by
    unfold pySplit ENVP
    rw [show ('E' :: 'N' :: 'V' :: ':' :: name.data).length + 1 = (name.data.length + 4) + 1
      by simp]
    unfold pySplitGo
    rw [if_pos (show (('E' : Char) :: ['N', 'V', ':']).isPrefixOf
        ('E' :: 'N' :: 'V' :: ':' :: name.data) = true from
      List.isPrefixOf_iff_prefix.mpr ⟨name.data, rfl⟩)]
    rw [show List.drop (['N', 'V', ':'] : List Char).length ('N' :: 'V' :: ':' :: name.data)
      = name.data from rfl]
    rw [pySplitGo_no_occ 'E' ['N', 'V', ':'] (name.data.length + 4) name.data []
      (by omega) hocc]
    simp
  rw [hsplit]
  show getenvD env (String.mk name.data) "" = getenvD env name ""
  rfl

/-- Values without the reserved marker pass through unchanged. -/
theorem resolve_env_value_pass (env : Env) (v : String)
    (h : ENVP.isPrefixOf v.data = false) :
    resolve_env_value env v = v := by
  unfold resolve_env_value
  rw [h]
  simp




/-- With a `value` key present, `execute_action` overwrites exactly that
key with its ENV-resolved form (the line-29 in-place mutation). -/
theorem execute_post_of_value (d : Driver) (env : Env) (a : ActionDict) (atype v : String)
    (ha : a.action = some atype) (hv : a.value = some v) :
    execute_post d env a = { a with value := some (resolve_env_value env v) } := by
  unfold execute_post execute_action_body
  simp only [ha, hv]
  repeat' split
  all_goals first
    | rfl
    | apply submitBody_post

/-- No `ENV:`-prefixed literal is the Enter key name. -/
theorem append_ne_enter (n : String) : "ENV:" ++ n ≠ "Enter" := by
  intro h
  have h2 := congrArg String.data h
  rw [String.data_append] at h2
  have h3 : ('E' : Char) :: 'N' :: 'V' :: ':' :: n.data = ['E', 'n', 't', 'e', 'r'] := h2
  injection h3 with hA h4
  injection h4 with hB h5
  exact absurd hB (by decide)

/-- C8: an action value of the form `ENV:<NAME>` is resolved from the
process environment at execution time with empty-string default; values
without the marker pass through unchanged; the dict's value is overwritten
with the resolved form before use; every value-carrying driver call uses
the resolved value (or the submit branch's literal Enter key), so whenever
resolution changes the value the literal `ENV:<NAME>` string is never
passed to the page driver. -/
theorem c8_env_resolution :
    (∀ (env : Env) (name : String), ¬ (ENVP <:+: name.data) →
       resolve_env_value env ("ENV:" ++ name) = getenvD env name "") ∧
    (∀ (env : Env) (v : String), ENVP.isPrefixOf v.data = false →
       resolve_env_value env v = v) ∧
    (∀ (d : Driver) (env : Env) (a : ActionDict) (atype v : String),
       a.action = some atype → a.value = some v →
       execute_post d env a = { a with value := some (resolve_env_value env v) } ∧
       ∀ c ∈ execute_calls d env a, ∀ w, usesVal c = some w →
         w = resolve_env_value env v ∨ w = "Enter") ∧
    (∀ (d : Driver) (env : Env) (a : ActionDict) (atype name : String),
       a.action = some atype → a.value = some ("ENV:" ++ name) →
       ¬ (ENVP <:+: name.data) → getenvD env name "" ≠ "ENV:" ++ name →
       ∀ c ∈ execute_calls d env a, usesVal c ≠ some ("ENV:" ++ name)) := by
  refine ⟨resolve_env_value_of_env, resolve_env_value_pass, ?_, ?_⟩
  · intro d env a atype v ha hv
    exact ⟨execute_post_of_value d env a atype v ha hv,
           execute_calls_vals d env a atype v ha hv⟩
  · intro d env a atype name ha hv hocc hne c hc hw
    rcases execute_calls_vals d env a atype ("ENV:" ++ name) ha hv c hc _ hw with h | h
    · rw [resolve_env_value_of_env env name hocc] at h
      exact hne h.symm
    · exact append_ne_enter name h

/-- Witness for C8 with `FOO=bar` in the environment. -/
theorem c8_env_resolution_witness :
    resolve_env_value EnvFoo ("ENV:" ++ "FOO") = getenvD EnvFoo "FOO" "" ∧
    resolve_env_value EnvFoo "plain" = "plain" ∧
    execute_post D1 EnvFoo A8w = { A8w with value := some "bar" } := by
  refine ⟨c8_env_resolution.1 EnvFoo "FOO" (by decide),
          c8_env_resolution.2.1 EnvFoo "plain" (by decide), ?_⟩
  have h := (c8_env_resolution.2.2.1 D1 EnvFoo A8w "press" "ENV:FOO" rfl rfl).1
  rw [h]
  decide

end BrowserAgent
